import Mathlib

/-!
Shallow embedding of the application-management module (djangogirls):
`applications/models.py` (Form, Question, Application, Score, Email) and
`applications/forms.py` (ApplicationForm).  Times are modelled as integers,
floating-point score arithmetic as exact rationals, the mail transport as a
boolean outcome oracle, and the database as explicit lists of records.
-/

namespace DG

/-! ## Form application window (`models.py`, `Form.application_open`) -/

/-- The two optional window bounds of a `Form` (`open_from`, `open_until`,
both nullable datetimes); instants are modelled as integers. -/
structure FormWindow where
  open_from : Option Int
  open_until : Option Int

/-- Embeds `Form.application_open` (`models.py` lines 77-81):

    if self.open_from and self.open_until:
        return (self.open_from < timezone.now() < self.open_until)
    return True

A datetime object is always truthy in Python, so the guard tests that both
bounds are non-null; the chained comparison is strict at both ends. -/
def application_open (f : FormWindow) (now : Int) : Bool :=
  match f.open_from, f.open_until with
  | some a, some b => decide (a < now) && decide (now < b)
  | _, _ => true

/-- The claim's wording, for comparison with the code: `application_open` is
true iff no open window is set (not both bounds present), or the current time
lies within the half-open interval `[open_from, open_until)`. -/
def claim_application_open (f : FormWindow) (now : Int) : Prop :=
  ¬ (f.open_from ≠ none ∧ f.open_until ≠ none) ∨
    (∃ a b, f.open_from = some a ∧ f.open_until = some b ∧ a ≤ now ∧ now < b)

/-! ## Score statistics (`models.py`, `Application.average_score`,
`Application.variance`, `Application.stdev`) -/

/-- Embeds the comprehension `[s.score for s in self.scores.all() if s.score]`
shared by `average_score` and `variance`.  `Score.score` is a nullable float;
the Python truthiness test keeps a score exactly when it is non-null and
non-zero (`0.0` is falsy). -/
def includedScores (scores : List (Option ℚ)) : List ℚ :=
  scores.filterMap (fun s => s.bind (fun x => if x = 0 then none else some x))

/-- Embeds `Application.average_score` (`models.py` lines 132-141): the mean of
the included scores, or `none` when that list is empty. -/
def average_score (scores : List (Option ℚ)) : Option ℚ :=
  let data := includedScores scores
  if data.isEmpty then none
  else some (data.sum / (data.length : ℚ))

/-- Embeds `Application.variance` (`models.py` lines 143-154).  The float
arithmetic is modelled exactly over ℚ; `none` models the `AssertionError`
raised when the sum of square deviations is negative. -/
def variance (scores : List (Option ℚ)) : Option ℚ :=
  let data := includedScores scores
  let n := data.length
  if n = 0 then some 0
  else
    let c := data.sum / (n : ℚ)
    if n < 2 then some 0
    else
      let ss0 := (data.map (fun x => (x - c) ^ 2)).sum
      let ss := ss0 - ((data.map (fun x => x - c)).sum) ^ 2 / (n : ℚ)
      if ss < 0 then none
      else some (ss / ((n : ℚ) - 1))

/-- Embeds `Application.stdev` (`models.py` lines 156-157):
`self.variance() ** 0.5`; an `AssertionError` inside `variance` propagates. -/
noncomputable def stdev (scores : List (Option ℚ)) : Option ℝ :=
  (variance scores).map (fun q => Real.sqrt (q : ℝ))

/-- The spec's variance formula, written from its words with the inclusion
rule amended to "non-null and non-zero": `0` when `n < 2`, otherwise
`(Σ(x−mean)² − (Σ(x−mean))²/n) / (n−1)` over the included scores. -/
def specVariance (scores : List (Option ℚ)) : ℚ :=
  let data := includedScores scores
  let n := data.length
  if n < 2 then 0
  else
    let m := data.sum / (n : ℚ)
    (((data.map (fun x => (x - m) ^ 2)).sum
        - ((data.map (fun x => x - m)).sum) ^ 2 / (n : ℚ)) / ((n : ℚ) - 1))

/-- The claim's variance, written from its words as stated: the included
scores are all those carrying a numeric value (null scores excluded, zero
kept). -/
def claimVariance (scores : List (Option ℚ)) : ℚ :=
  let data := scores.filterMap id
  let n := data.length
  if n < 2 then 0
  else
    let m := data.sum / (n : ℚ)
    (((data.map (fun x => (x - m) ^ 2)).sum
        - ((data.map (fun x => x - m)).sum) ^ 2 / (n : ℚ)) / ((n : ℚ) - 1))

/-- The spec's average, written from its words with the inclusion rule
amended to "non-null and non-zero". -/
def specAverageScore (scores : List (Option ℚ)) : Option ℚ :=
  let data := includedScores scores
  if data.length = 0 then none
  else some (data.sum / (data.length : ℚ))

/-- The claim's average, written from its words as stated: the mean of all
scores carrying a numeric value (zero included). -/
def claimAverageScore (scores : List (Option ℚ)) : Option ℚ :=
  let data := scores.filterMap id
  if data.length = 0 then none
  else some (data.sum / (data.length : ℚ))

/-! ## Questions and the dynamically built application form
(`models.py` `Question`, `forms.py` `ApplicationForm.__init__`) -/

/-- Python's `str.split` with a one-character separator, generalized to a
separator predicate: cuts at every separator occurrence and keeps empty
pieces, so the empty string yields `[` the empty string `]`.  `acc` holds the
characters of the piece being read. -/
def pySplitAux (isSep : Char → Bool) : List Char → List Char → List String
  | [], acc => [String.mk acc]
  | c :: rest, acc =>
    if isSep c then String.mk acc :: pySplitAux isSep rest []
    else pySplitAux isSep rest (acc ++ [c])

/-- Python's `str.split(sep)` for a one-character `sep`, written structurally
so concrete instances reduce. -/
def pySplit (isSep : Char → Bool) (s : String) : List String :=
  pySplitAux isSep s.toList []

/-- Embeds the `Question` model fields the form logic reads.  `question_type`
is the stored string; `choices` is a nullable text field. -/
structure Question where
  pk : Nat
  title : String
  question_type : String
  is_required : Bool
  choices : Option String
  is_multiple_choice : Bool
deriving DecidableEq, Repr

/-- Embeds `Question.get_choices_as_list` (`models.py` lines 110-117): a
`TypeError` (modelled as `none`) unless `question_type == choices`, otherwise
`self.choices.split(` with the single separator `;` `)`.  A null `choices`
raises (`none`): `None.split` is an attribute error. -/
def get_choices_as_list (q : Question) : Option (List String) :=
  if q.question_type ≠ "choices" then none
  else q.choices.map (fun cs => pySplit (fun c => c = ';') cs)

/-- The claim's option list, written from its words: the stored choice list
split on pipe or semicolon delimiters. -/
def claimAllowedOptions (cs : String) : List String :=
  pySplit (fun c => c = '|' || c = ';') cs

/-- Field names of the generated form.  In the source the names are the
strings `question_` followed by the question's integer `pk`, plus the fixed
name `newsletter_optin`; since `pk ↦ question_<pk>` is injective and never
collides with `newsletter_optin`, the names are embedded as a tagged type. -/
inductive FieldName where
  | question (pk : Nat)
  | newsletter_optin
deriving DecidableEq, Repr

/-- The typed form fields `ApplicationForm.__init__` creates, keeping the
data validation depends on: the required flag and, for choice fields, the
option values (Django stores `(value, label)` pairs with value = label here;
only the values matter for validation). -/
inductive FieldSpec where
  | charField (required : Bool)
  | choiceField (required : Bool) (options : List String)
  | multipleChoiceField (required : Bool) (options : List String)
  | emailField (required : Bool)
deriving DecidableEq, Repr

/-- Embeds the per-question body of the loop in `ApplicationForm.__init__`
(`forms.py` lines 18-44): `paragraph`/`text` yield a `CharField`, `choices`
yields a `MultipleChoiceField` or `ChoiceField` whose options are
`question.choices.split(` `;` `)`, `email` yields an `EmailField`, and any
other stored type yields no field at all.  For a `choices` question whose
`choices` column is null the split raises (`none`). -/
def fieldsForQuestion (q : Question) : Option (List (FieldName × FieldSpec)) :=
  if q.question_type = "paragraph" ∨ q.question_type = "text" then
    some [(.question q.pk, .charField q.is_required)]
  else if q.question_type = "choices" then
    match q.choices with
    | none => none
    | some cs =>
      if q.is_multiple_choice then
        some [(.question q.pk,
          .multipleChoiceField q.is_required (pySplit (fun c => c = ';') cs))]
      else
        some [(.question q.pk,
          .choiceField q.is_required (pySplit (fun c => c = ';') cs))]
  else if q.question_type = "email" then
    some [(.question q.pk, .emailField q.is_required)]
  else
    some []

/-- Assignment into the form's ordered field dictionary
(`self.fields[name] = ...`): replaces in place when the name is present,
appends otherwise. -/
def setField (fs : List (FieldName × FieldSpec)) (name : FieldName)
    (v : FieldSpec) : List (FieldName × FieldSpec) :=
  if fs.any (fun p => p.1 = name) then
    fs.map (fun p => if p.1 = name then (name, v) else p)
  else fs ++ [(name, v)]

/-- The fixed opt-in field appended last (`forms.py` lines 46-53): a required
`ChoiceField` whose two option values are `yes` and `no`. -/
def newsletterField : FieldSpec := .choiceField true ["yes", "no"]

/-- The question loop of `ApplicationForm.__init__`, folded over the field
dictionary; `none` models an exception escaping the constructor. -/
def buildFieldsAux (acc : List (FieldName × FieldSpec)) :
    List Question → Option (List (FieldName × FieldSpec))
  | [] => some acc
  | q :: rest =>
    match fieldsForQuestion q with
    | none => none
    | some new => buildFieldsAux (new.foldl (fun a p => setField a p.1 p.2) acc) rest

/-- Embeds `ApplicationForm.__init__` (`forms.py` lines 18-53): the fields
generated from the question sequence, then the `newsletter_optin` field. -/
def buildFields (qs : List Question) : Option (List (FieldName × FieldSpec)) :=
  (buildFieldsAux [] qs).map
    (fun fs => setField fs .newsletter_optin newsletterField)

/-- A value of one cleaned form entry: a scalar string, or the list of
selections of a multi-select choice field. -/
inductive SubmittedValue where
  | str (s : String)
  | vlist (l : List String)
deriving DecidableEq, Repr

/-- Modelled from the spec: the acceptance rule of the framework's choice
fields (framework code, not in `src/`) — a single-select value must be one of
the field's options, and every selection of a multi-select must be drawn from
them.  Non-choice fields are out of scope here. -/
def validateValue : FieldSpec → SubmittedValue → Bool
  | .choiceField _ opts, .str v => opts.contains v
  | .multipleChoiceField _ opts, .vlist vs => vs.all (fun v => opts.contains v)
  | _, _ => false

/-! ## Persisting a submission (`forms.py`, `ApplicationForm.save`) -/

/-- Embeds the flattening at `forms.py` line 74:
`value = ', '.join(value) if type(value) == list else value`. -/
def flattenValue : SubmittedValue → String
  | .str s => s
  | .vlist l => String.intercalate ", " l

/-- Embeds `Question.objects.get(pk=pk, form=form)` restricted to the form's
own question list: the question of this form with the given primary key, if
any (`Question.DoesNotExist` is modelled as `none`). -/
def findQuestion (qs : List Question) (pk : Nat) : Option Question :=
  qs.find? (fun q => q.pk = pk)

/-- The state `ApplicationForm.save` accumulates on the fresh `Application`
and its `Answer` rows: the created answers as `(question pk, answer text)` in
creation order, the newsletter flag, and the application's email. -/
structure SaveResult where
  answers : List (Nat × String)
  newsletter_optin : Bool
  email : Option String
deriving DecidableEq, Repr

/-- Embeds one iteration of the loop in `ApplicationForm.save` (`forms.py`
lines 60-85).  For a `question_<pk>` key the prefix is stripped and the
question looked up in this form: a miss (`DoesNotExist`) is caught and, the
key not being `newsletter_optin`, ignored.  For the `newsletter_optin` key
the lookup raises `ValueError` (non-integer pk), which is caught and the flag
set iff the value equals the string `yes`.  A found question creates an
`Answer` with the flattened value; an `email`-type question additionally
stores that value on the application. -/
def saveStep (qs : List Question) (st : SaveResult)
    (entry : FieldName × SubmittedValue) : SaveResult :=
  match entry.1 with
  | .newsletter_optin =>
    { st with newsletter_optin := entry.2 = SubmittedValue.str "yes" }
  | .question pk =>
    match findQuestion qs pk with
    | none => st
    | some q =>
      let v := flattenValue entry.2
      let st1 := { st with answers := st.answers ++ [(pk, v)] }
      if q.question_type = "email" then { st1 with email := some v } else st1

/-- Embeds the loop of `ApplicationForm.save` over the cleaned data (the
application starts with `newsletter_optin = False` and a null email, the
model defaults). -/
def formSave (qs : List Question) (cleaned : List (FieldName × SubmittedValue)) :
    SaveResult :=
  cleaned.foldl (saveStep qs) { answers := [], newsletter_optin := false, email := none }

/-! ## Bulk mail (`models.py`, `Email.send`) -/

/-- The `Application` columns `Email.send` reads: owning form, state, and the
nullable email address. -/
structure ApplicationRec where
  form : Nat
  state : String
  email : Option String
deriving DecidableEq, Repr

/-- The `Email` columns `Email.send` reads: owning form and the target
recipient group (an application state). -/
structure EmailRec where
  form : Nat
  subject : String
  text : String
  recipients_group : String
deriving DecidableEq, Repr

/-- What `Email.send` persists, plus the observable transport effect: the
addresses for which a delivery was attempted, in iteration order. -/
structure EmailSendOutcome where
  number_of_recipients : Nat
  successfuly_sent : String
  failed_to_sent : String
  attempts : List String
deriving DecidableEq, Repr

/-- The usable address of a recipient: `if recipient.email:` keeps an address
that is non-null and non-empty (Python truthiness of a nullable string). -/
def usableEmail (r : ApplicationRec) : Option String :=
  r.email.bind (fun e => if e = "" then none else some e)

/-- Embeds the recipient loop of `Email.send` (`models.py` lines 219-227),
with the mail transport as an outcome oracle `deliver` indexed by the number
of sends attempted so far (`k` attempts precede this call).  Returns the
success list, the failure list, and the attempted addresses in order; a
failed send is caught (`except:`) and recorded, and iteration continues. -/
def sendLoop (deliver : Nat → String → Bool) (k : Nat) :
    List ApplicationRec → List String × List String × List String
  | [] => ([], [], [])
  | r :: rest =>
    match usableEmail r with
    | none => sendLoop deliver k rest
    | some e =>
      let p := sendLoop deliver (k + 1) rest
      if deliver k e then (e :: p.1, p.2.1, e :: p.2.2)
      else (p.1, e :: p.2.1, e :: p.2.2)

/-- Embeds `Email.send` (`models.py` lines 211-232): recipients are the
applications of the email's form whose state equals `recipients_group`;
`number_of_recipients` is their full count; the loop attempts one send per
usable address; the success and failure lists are persisted comma+space
joined. -/
def EmailRec.send (apps : List ApplicationRec) (em : EmailRec)
    (deliver : Nat → String → Bool) : EmailSendOutcome :=
  let recipients := apps.filter
    (fun a => a.form = em.form ∧ a.state = em.recipients_group)
  let r := sendLoop deliver 0 recipients
  { number_of_recipients := recipients.length
    successfuly_sent := String.intercalate ", " r.1
    failed_to_sent := String.intercalate ", " r.2.1
    attempts := r.2.2 }

/-- The recipients resolved by `Email.send`, named for the theorems. -/
def recipientsOf (apps : List ApplicationRec) (em : EmailRec) :
    List ApplicationRec :=
  apps.filter (fun a => a.form = em.form ∧ a.state = em.recipients_group)

/-- The addresses `Email.send` attempts, independent of any outcome. -/
def attemptList (l : List ApplicationRec) : List String :=
  l.filterMap usableEmail

/-- The partition of a list of attempted addresses by delivery outcome,
threading the attempt index. -/
def outcomesFrom (deliver : Nat → String → Bool) (k : Nat) :
    List String → List String × List String
  | [] => ([], [])
  | e :: rest =>
    let p := outcomesFrom deliver (k + 1) rest
    if deliver k e then (e :: p.1, p.2) else (p.1, e :: p.2)

/-! ## Helper lemmas: score statistics -/

lemma sum_map_sub_const (l : List ℚ) (c : ℚ) :
    (l.map (fun x => x - c)).sum = l.sum - l.length * c := by
  induction l with
  | nil => simp
  | cons x xs ih => simp [ih]; ring

lemma sum_map_sub_mean (l : List ℚ) (h : l.length ≠ 0) :
    (l.map (fun x => x - l.sum / (l.length : ℚ))).sum = 0 := by
  have hl : (l.length : ℚ) ≠ 0 := Nat.cast_ne_zero.mpr h
  rw [sum_map_sub_const]
  field_simp

lemma sum_sq_sub_nonneg (l : List ℚ) (c : ℚ) :
    0 ≤ (l.map (fun x => (x - c) ^ 2)).sum := by
  apply List.sum_nonneg
  intro x hx
  obtain ⟨y, _, rfl⟩ := List.mem_map.mp hx
  positivity

/-- The assertion in `Application.variance` never fires over exact
arithmetic, and the returned value is the spec formula. -/
lemma variance_eq_some_spec (scores : List (Option ℚ)) :
    variance scores = some (specVariance scores) := by
  unfold variance specVariance
  set data := includedScores scores with hdata
  by_cases h0 : data.length = 0
  · simp [h0]
  · by_cases h1 : data.length < 2
    · simp [h0, h1]
    · have hsub : (data.map (fun x => x - data.sum / (data.length : ℚ))).sum = 0 :=
        sum_map_sub_mean data h0
      have hss : 0 ≤ (data.map (fun x => (x - data.sum / (data.length : ℚ)) ^ 2)).sum :=
        sum_sq_sub_nonneg data _
      simp only [h0, h1, if_false, hsub]
      rw [if_neg]
      push_neg
      simpa using hss

lemma specVariance_nonneg (scores : List (Option ℚ)) : 0 ≤ specVariance scores := by
  unfold specVariance
  set data := includedScores scores with hdata
  by_cases h1 : data.length < 2
  · simp [h1]
  · have hsub : (data.map (fun x => x - data.sum / (data.length : ℚ))).sum = 0 := by
      apply sum_map_sub_mean
      omega
    have hss : 0 ≤ (data.map (fun x => (x - data.sum / (data.length : ℚ)) ^ 2)).sum :=
      sum_sq_sub_nonneg data _
    have hden : (0 : ℚ) ≤ (data.length : ℚ) - 1 := by
      have : (2 : ℚ) ≤ (data.length : ℚ) := by exact_mod_cast Nat.le_of_not_lt h1
      linarith
    simp only [h1, if_false, hsub]
    apply div_nonneg _ hden
    simpa using hss

lemma stdev_eq_sqrt_spec (scores : List (Option ℚ)) :
    stdev scores = some (Real.sqrt ((specVariance scores : ℚ) : ℝ)) := by
  unfold stdev
  rw [variance_eq_some_spec]
  rfl

/-! ## Helper lemmas: form building -/

lemma setField_of_not_mem (fs : List (FieldName × FieldSpec)) (name : FieldName)
    (v : FieldSpec) (h : ∀ p ∈ fs, p.1 ≠ name) :
    setField fs name v = fs ++ [(name, v)] := by
  have hany : fs.any (fun p => p.1 = name) = false := by
    rw [List.any_eq_false]
    intro p hp
    simpa using h p hp
  unfold setField
  rw [hany]
  simp

lemma fieldsForQuestion_known (q : Question)
    (hty : q.question_type ∈ ["paragraph", "text", "choices", "email"])
    (hch : q.question_type = "choices" → q.choices ≠ none) :
    ∃ f, fieldsForQuestion q = some [(FieldName.question q.pk, f)] := by
  simp only [List.mem_cons, List.mem_singleton, List.not_mem_nil, or_false] at hty
  unfold fieldsForQuestion
  rcases hty with h | h | h | h
  · exact ⟨.charField q.is_required, by rw [if_pos (Or.inl h)]⟩
  · exact ⟨.charField q.is_required, by rw [if_pos (Or.inr h)]⟩
  · have hcs := hch h
    cases hcs' : q.choices with
    | none => exact absurd hcs' hcs
    | some cs =>
      have hne : ¬ (q.question_type = "paragraph" ∨ q.question_type = "text") := by
        rw [h]; decide
      cases hm : q.is_multiple_choice with
      | true =>
        refine ⟨.multipleChoiceField q.is_required (pySplit (fun c => c = ';') cs), ?_⟩
        rw [if_neg hne, if_pos h]
        simp
      | false =>
        refine ⟨.choiceField q.is_required (pySplit (fun c => c = ';') cs), ?_⟩
        rw [if_neg hne, if_pos h]
        simp
  · have hne : ¬ (q.question_type = "paragraph" ∨ q.question_type = "text") := by
      rw [h]; decide
    have hne2 : q.question_type ≠ "choices" := by rw [h]; decide
    exact ⟨.emailField q.is_required, by rw [if_neg hne, if_neg hne2, if_pos h]⟩

lemma buildFieldsAux_spec (qs : List Question) :
    ∀ acc : List (FieldName × FieldSpec),
    (∀ q ∈ qs, q.question_type ∈ ["paragraph", "text", "choices", "email"]) →
    (∀ q ∈ qs, q.question_type = "choices" → q.choices ≠ none) →
    (qs.map Question.pk).Nodup →
    (∀ q ∈ qs, ∀ p ∈ acc, p.1 ≠ FieldName.question q.pk) →
    ∃ fs, buildFieldsAux acc qs = some fs ∧
      fs.length = acc.length + qs.length ∧
      ∀ p ∈ fs, p ∈ acc ∨ ∃ q ∈ qs, p.1 = FieldName.question q.pk := by
  induction qs with
  | nil =>
    intro acc _ _ _ _
    exact ⟨acc, rfl, by simp [buildFieldsAux], fun p hp => Or.inl hp⟩
  | cons q rest ih =>
    intro acc hty hch hnd hfresh
    obtain ⟨f, hf⟩ := fieldsForQuestion_known q (hty q (by simp)) (hch q (by simp))
    have happ : setField acc (FieldName.question q.pk) f
        = acc ++ [(FieldName.question q.pk, f)] :=
      setField_of_not_mem _ _ _ (fun p hp => hfresh q (by simp) p hp)
    have hstep : buildFieldsAux acc (q :: rest)
        = buildFieldsAux (acc ++ [(FieldName.question q.pk, f)]) rest := by
      simp [buildFieldsAux, hf, happ]
    simp only [List.map_cons, List.nodup_cons, List.mem_map] at hnd
    obtain ⟨fs, hfs, hlen, hkeys⟩ :=
      ih (acc ++ [(FieldName.question q.pk, f)])
        (fun q' hq' => hty q' (List.mem_cons_of_mem q hq'))
        (fun q' hq' => hch q' (List.mem_cons_of_mem q hq'))
        hnd.2
        (by
          intro q' hq' p hp
          rcases List.mem_append.mp hp with hpa | hpn
          · exact hfresh q' (List.mem_cons_of_mem q hq') p hpa
          · simp only [List.mem_singleton] at hpn
            rw [hpn]
            intro hcontra
            simp only [FieldName.question.injEq] at hcontra
            exact hnd.1 ⟨q', hq', hcontra.symm⟩)
    refine ⟨fs, by rw [hstep]; exact hfs, by simp at hlen; simp [hlen]; omega, ?_⟩
    intro p hp
    rcases hkeys p hp with hpa | ⟨q', hq', hq'eq⟩
    · rcases List.mem_append.mp hpa with h1 | h2
      · exact Or.inl h1
      · simp only [List.mem_singleton] at h2
        exact Or.inr ⟨q, by simp, by rw [h2]⟩
    · exact Or.inr ⟨q', List.mem_cons_of_mem q hq', hq'eq⟩


/-! ## Helper lemmas: saving and bulk mail -/

lemma saveStep_answers_prefix (qs : List Question) (st : SaveResult)
    (e : FieldName × SubmittedValue) :
    ∃ t, (saveStep qs st e).answers = st.answers ++ t := by
  rcases e with ⟨name, v⟩
  cases name with
  | newsletter_optin => exact ⟨[], by simp [saveStep]⟩
  | question pk =>
    unfold saveStep
    cases h : findQuestion qs pk with
    | none => exact ⟨[], by simp [h]⟩
    | some q =>
      by_cases he : q.question_type = "email"
      · exact ⟨[(pk, flattenValue v)], by simp [h, he]⟩
      · exact ⟨[(pk, flattenValue v)], by simp [h, he]⟩

lemma foldl_saveStep_answers_prefix (qs : List Question)
    (l : List (FieldName × SubmittedValue)) :
    ∀ st : SaveResult, ∃ t, (l.foldl (saveStep qs) st).answers = st.answers ++ t := by
  induction l with
  | nil => intro st; exact ⟨[], by simp⟩
  | cons e rest ih =>
    intro st
    obtain ⟨t1, h1⟩ := saveStep_answers_prefix qs st e
    obtain ⟨t2, h2⟩ := ih (saveStep qs st e)
    exact ⟨t1 ++ t2, by rw [List.foldl_cons, h2, h1, List.append_assoc]⟩

lemma usableEmail_some (r : ApplicationRec) (e : String) :
    usableEmail r = some e ↔ r.email = some e ∧ e ≠ "" := by
  unfold usableEmail
  cases h : r.email with
  | none => simp
  | some e2 =>
    by_cases he : e2 = ""
    · simp [he]
      exact fun h2 => h2.symm
    · simp only [Option.some_bind, if_neg he, Option.some.injEq]
      constructor
      · rintro rfl; exact ⟨rfl, he⟩
      · rintro ⟨h2, _⟩; exact h2

lemma sendLoop_eq (deliver : Nat → String → Bool) :
    ∀ (l : List ApplicationRec) (k : Nat),
      sendLoop deliver k l =
        ((outcomesFrom deliver k (attemptList l)).1,
         (outcomesFrom deliver k (attemptList l)).2,
         attemptList l) := by
  intro l
  induction l with
  | nil => intro k; simp [sendLoop, attemptList, outcomesFrom]
  | cons r rest ih =>
    intro k
    cases h : usableEmail r with
    | none =>
      have hat : attemptList (r :: rest) = attemptList rest := by
        simp [attemptList, List.filterMap_cons, h]
      simp only [sendLoop, h, hat]
      exact ih k
    | some e =>
      have hat : attemptList (r :: rest) = e :: attemptList rest := by
        simp [attemptList, List.filterMap_cons, h]
      simp only [sendLoop, h, hat, outcomesFrom, ih (k + 1)]
      by_cases hd : deliver k e <;> simp [hd]

lemma outcomesFrom_perm (deliver : Nat → String → Bool) :
    ∀ (l : List String) (k : Nat),
      List.Perm ((outcomesFrom deliver k l).1 ++ (outcomesFrom deliver k l).2) l := by
  intro l
  induction l with
  | nil => intro k; simp [outcomesFrom]
  | cons e rest ih =>
    intro k
    simp only [outcomesFrom]
    by_cases hd : deliver k e
    · simpa [hd] using (ih (k + 1)).cons e
    · simp only [hd, Bool.false_eq_true, if_false]
      exact List.perm_middle.trans ((ih (k + 1)).cons e)

/-! ## Claim theorems -/

/-- C1 counterexample: for a form whose window is `[0, 10)` and the current
time `0`, the claim's half-open-interval reading says applications are open,
but `Form.application_open` is false — the code's comparison is strict at the
lower bound as well. -/
theorem application_open_claim_counterexample :
    application_open ⟨some 0, some 10⟩ 0 = false ∧
      claim_application_open ⟨some 0, some 10⟩ 0 := by
  refine ⟨rfl, Or.inr ⟨0, 10, rfl, rfl, le_refl 0, by norm_num⟩⟩

/-- C1 (amended): `Form.application_open` is true iff at least one of
`open_from`, `open_until` is unset, or the current time lies strictly inside
the open interval `(open_from, open_until)` — both endpoints excluded. -/
theorem application_open_iff (f : FormWindow) (now : Int) :
    application_open f now = true ↔
      f.open_from = none ∨ f.open_until = none ∨
        ∃ a b, f.open_from = some a ∧ f.open_until = some b ∧
          a < now ∧ now < b := by
  rcases f with ⟨fa, fb⟩
  cases fa <;> cases fb <;> simp [application_open]

/-- C2: for an application all of whose scores are either null or carry a
value in `[1, 5]`, the negative-sum-of-square-deviations assertion inside
`variance` never fires, and both `variance` and `stdev` return non-negative
results. -/
theorem variance_stdev_nonneg_of_valid (scores : List (Option ℚ))
    (_h : ∀ s ∈ scores, s = none ∨ ∃ x, s = some x ∧ 1 ≤ x ∧ x ≤ 5) :
    ∃ v : ℚ, variance scores = some v ∧ 0 ≤ v ∧
      stdev scores = some (Real.sqrt (v : ℝ)) ∧ 0 ≤ Real.sqrt (v : ℝ) :=
  ⟨specVariance scores, variance_eq_some_spec scores, specVariance_nonneg scores,
    stdev_eq_sqrt_spec scores, Real.sqrt_nonneg _⟩

/-- C2 witness: the hypothesis holds for the concrete scores
`[null, 2, 4]`, and the theorem applies to them. -/
theorem variance_stdev_nonneg_of_valid_witness :
    ∃ v : ℚ, variance [none, some 2, some 4] = some v ∧ 0 ≤ v ∧
      stdev [none, some 2, some 4] = some (Real.sqrt (v : ℝ)) ∧
      0 ≤ Real.sqrt (v : ℝ) :=
  variance_stdev_nonneg_of_valid [none, some 2, some 4] (by decide)

/-- C3 counterexample: for the stored scores `[0, 2]` the claim's reading
(include every score carrying a numeric value) gives sample variance `2`,
but the code's truthiness filter drops the score `0`, leaving a single score
and variance `0`. -/
theorem variance_claim_counterexample :
    variance [some 0, some 2] = some 0 ∧ claimVariance [some 0, some 2] = 2 := by
  refine ⟨rfl, by norm_num [claimVariance, List.filterMap_cons]⟩

/-- C3 (amended): with the included scores being those carrying a non-null,
non-zero numeric value (the Python truthiness filter) and `n` their count,
`variance` returns `0` when `n < 2` and otherwise
`(Σ(x−mean)² − (Σ(x−mean))²/n) / (n−1)` over the included scores, and
`stdev` returns its square root. -/
theorem variance_stdev_characterization (scores : List (Option ℚ)) :
    variance scores = some (specVariance scores) ∧
      stdev scores = some (Real.sqrt ((specVariance scores : ℚ) : ℝ)) :=
  ⟨variance_eq_some_spec scores, stdev_eq_sqrt_spec scores⟩

/-- C4 counterexample: for the stored choice list `A|B` the claim's
pipe-or-semicolon split yields two options, one of which is the submitted
value `A`; but the code splits on semicolon only, so the sole option is the
whole stored string and the submission is rejected. -/
theorem choices_delimiter_counterexample :
    get_choices_as_list
        { pk := 1, title := "q", question_type := "choices", is_required := true,
          choices := some "A|B", is_multiple_choice := false }
      = some ["A|B"] ∧
    fieldsForQuestion
        { pk := 1, title := "q", question_type := "choices", is_required := true,
          choices := some "A|B", is_multiple_choice := false }
      = some [(.question 1, .choiceField true ["A|B"])] ∧
    validateValue (.choiceField true ["A|B"]) (.str "A") = false ∧
    "A" ∈ claimAllowedOptions "A|B" := by
  refine ⟨by decide, by decide, by decide, by decide⟩

/-- C4 (amended): the allowed options of a choices-type question are obtained
by splitting the stored choice list on semicolon delimiters only (not pipe);
a single-select submission is accepted iff its value is one of those options,
and a multi-select submission is accepted iff every selection is drawn from
them. -/
theorem choices_validation (q : Question) (cs : String)
    (hty : q.question_type = "choices") (hcs : q.choices = some cs) :
    get_choices_as_list q = some (pySplit (fun c => c = ';') cs) ∧
    (q.is_multiple_choice = false →
      ∀ fspec v, fieldsForQuestion q = some [(.question q.pk, fspec)] →
        (validateValue fspec (.str v) = true ↔
          v ∈ pySplit (fun c => c = ';') cs)) ∧
    (q.is_multiple_choice = true →
      ∀ fspec vs, fieldsForQuestion q = some [(.question q.pk, fspec)] →
        (validateValue fspec (.vlist vs) = true ↔
          ∀ v ∈ vs, v ∈ pySplit (fun c => c = ';') cs)) := by
  refine ⟨by simp [get_choices_as_list, hty, hcs], ?_, ?_⟩
  · intro hm fspec v hf
    simp only [fieldsForQuestion, hty, hcs, hm] at hf
    rw [if_neg (by decide : ¬("choices" = "paragraph" ∨ "choices" = "text"))] at hf
    simp at hf
    rw [← hf]
    simp [validateValue, List.elem_iff]
  · intro hm fspec vs hf
    simp only [fieldsForQuestion, hty, hcs, hm] at hf
    rw [if_neg (by decide : ¬("choices" = "paragraph" ∨ "choices" = "text"))] at hf
    simp at hf
    rw [← hf]
    simp [validateValue, List.all_eq_true, List.elem_iff]

/-- C4 witness: the amended theorem applied to a concrete single-select
question with stored choice list `A;B`. -/
theorem choices_validation_witness :
    get_choices_as_list
        { pk := 2, title := "w", question_type := "choices", is_required := true,
          choices := some "A;B", is_multiple_choice := false }
      = some (pySplit (fun c => c = ';') "A;B") ∧
    (Question.is_multiple_choice
        { pk := 2, title := "w", question_type := "choices", is_required := true,
          choices := some "A;B", is_multiple_choice := false } = false →
      ∀ fspec v, fieldsForQuestion
          { pk := 2, title := "w", question_type := "choices", is_required := true,
            choices := some "A;B", is_multiple_choice := false }
        = some [(.question 2, fspec)] →
        (validateValue fspec (.str v) = true ↔
          v ∈ pySplit (fun c => c = ';') "A;B")) ∧
    (Question.is_multiple_choice
        { pk := 2, title := "w", question_type := "choices", is_required := true,
          choices := some "A;B", is_multiple_choice := false } = true →
      ∀ fspec vs, fieldsForQuestion
          { pk := 2, title := "w", question_type := "choices", is_required := true,
            choices := some "A;B", is_multiple_choice := false }
        = some [(.question 2, fspec)] →
        (validateValue fspec (.vlist vs) = true ↔
          ∀ v ∈ vs, v ∈ pySplit (fun c => c = ';') "A;B")) :=
  choices_validation
    { pk := 2, title := "w", question_type := "choices", is_required := true,
      choices := some "A;B", is_multiple_choice := false } "A;B" rfl rfl

/-- C8 counterexample: for the single stored score `0` the claim says the
average is the mean of the numeric scores, `0`, but the code's truthiness
filter drops the score and `average_score` returns null. -/
theorem average_score_claim_counterexample :
    average_score [some 0] = none ∧ claimAverageScore [some 0] = some 0 := by
  refine ⟨rfl, by norm_num [claimAverageScore, List.filterMap_cons]⟩

/-- C8 (amended): `average_score` returns no value exactly when no score
carries a non-null, non-zero numeric value (the Python truthiness filter),
and otherwise the arithmetic mean of those included scores; null scores are
excluded. -/
theorem average_score_eq_spec (scores : List (Option ℚ)) :
    average_score scores = specAverageScore scores := by
  unfold average_score specAverageScore
  cases h : includedScores scores <;> simp [h]

/-- C7: for a sequence of questions of documented types, with choice lists
present on the choices-type ones and pairwise-distinct primary keys, the
constructed application form has exactly one input field per question plus
one additional required newsletter opt-in field with exactly the two options
yes and no, so the field count is the question count plus one. -/
theorem buildFields_count (qs : List Question)
    (hty : ∀ q ∈ qs, q.question_type ∈ ["paragraph", "text", "choices", "email"])
    (hch : ∀ q ∈ qs, q.question_type = "choices" → q.choices ≠ none)
    (hpk : (qs.map Question.pk).Nodup) :
    ∃ fs, buildFields qs = some fs ∧ fs.length = qs.length + 1 ∧
      (FieldName.newsletter_optin, FieldSpec.choiceField true ["yes", "no"]) ∈ fs := by
  obtain ⟨fs0, h0, hlen, hkeys⟩ := buildFieldsAux_spec qs [] hty hch hpk (by simp)
  have hfresh : ∀ p ∈ fs0, p.1 ≠ FieldName.newsletter_optin := by
    intro p hp
    rcases hkeys p hp with h | ⟨q, _, hq⟩
    · simp at h
    · rw [hq]; simp
  have happ := setField_of_not_mem fs0 FieldName.newsletter_optin newsletterField hfresh
  refine ⟨fs0 ++ [(FieldName.newsletter_optin, newsletterField)], ?_, ?_, ?_⟩
  · unfold buildFields
    rw [h0]
    simp [happ]
  · simp only [List.length_nil, Nat.zero_add] at hlen
    simp [hlen]
  · simp [newsletterField]

/-- C7 witness: the theorem applied to three concrete questions, one per
field family. -/
theorem buildFields_count_witness :
    ∃ fs, buildFields
        [{ pk := 1, title := "p", question_type := "paragraph", is_required := true,
           choices := none, is_multiple_choice := false },
         { pk := 2, title := "c", question_type := "choices", is_required := false,
           choices := some "A;B", is_multiple_choice := true },
         { pk := 3, title := "e", question_type := "email", is_required := true,
           choices := none, is_multiple_choice := false }]
      = some fs ∧ fs.length = 3 + 1 ∧
      (FieldName.newsletter_optin, FieldSpec.choiceField true ["yes", "no"]) ∈ fs :=
  buildFields_count _ (by decide) (by decide) (by decide)

/-- C9: when the validated value of an entry naming a known multi-select
choices question of the form is a list of selections, the persisted answer
text is those selections joined by comma+space in submission order. -/
theorem multiselect_answer_joined (qs : List Question) (q : Question)
    (l1 l2 : List (FieldName × SubmittedValue)) (pk : Nat) (sels : List String)
    (hq : findQuestion qs pk = some q)
    (_hty : q.question_type = "choices") (_hm : q.is_multiple_choice = true) :
    (pk, String.intercalate ", " sels) ∈
      (formSave qs
        (l1 ++ (FieldName.question pk, SubmittedValue.vlist sels) :: l2)).answers := by
  unfold formSave
  rw [List.foldl_append, List.foldl_cons]
  set st := l1.foldl (saveStep qs)
    { answers := [], newsletter_optin := false, email := none } with hst
  have hmem : (pk, String.intercalate ", " sels) ∈
      (saveStep qs st (FieldName.question pk, SubmittedValue.vlist sels)).answers := by
    unfold saveStep
    simp only [hq]
    by_cases he : q.question_type = "email" <;> simp [he, flattenValue]
  obtain ⟨t, ht⟩ := foldl_saveStep_answers_prefix qs l2
    (saveStep qs st (FieldName.question pk, SubmittedValue.vlist sels))
  rw [ht]
  exact List.mem_append_left _ hmem

/-- C9 witness: the theorem applied to a concrete form with one multi-select
question and the submission selecting A then B. -/
theorem multiselect_answer_joined_witness :
    (5, String.intercalate ", " ["A", "B"]) ∈
      (formSave
        [{ pk := 5, title := "c", question_type := "choices", is_required := true,
           choices := some "A;B", is_multiple_choice := true }]
        ([] ++ (FieldName.question 5, SubmittedValue.vlist ["A", "B"]) :: [])).answers :=
  multiselect_answer_joined
    [{ pk := 5, title := "c", question_type := "choices", is_required := true,
       choices := some "A;B", is_multiple_choice := true }]
    { pk := 5, title := "c", question_type := "choices", is_required := true,
      choices := some "A;B", is_multiple_choice := true }
    [] [] 5 ["A", "B"] (by decide) rfl rfl

/-- C10: a cleaned-data entry whose key names no question of this form and is
not the newsletter marker is silently ignored — removing it leaves the save
result (answers, opt-in flag, email) unchanged, so no answer row is created
for it while all other entries persist as before. -/
theorem unknown_entry_ignored (qs : List Question)
    (l1 l2 : List (FieldName × SubmittedValue)) (pk : Nat) (v : SubmittedValue)
    (h : findQuestion qs pk = none) :
    formSave qs (l1 ++ (FieldName.question pk, v) :: l2) = formSave qs (l1 ++ l2) := by
  unfold formSave
  rw [List.foldl_append, List.foldl_append, List.foldl_cons]
  congr 1
  unfold saveStep
  simp [h]

/-- C10 witness: a concrete save in which the entry for the unknown question
key 9 is dropped without any effect on the rest. -/
theorem unknown_entry_ignored_witness :
    formSave []
        ([(FieldName.newsletter_optin, SubmittedValue.str "yes")] ++
          (FieldName.question 9, SubmittedValue.str "x") :: []) =
      formSave [] ([(FieldName.newsletter_optin, SubmittedValue.str "yes")] ++ []) :=
  unknown_entry_ignored [] [(FieldName.newsletter_optin, SubmittedValue.str "yes")]
    [] 9 (SubmittedValue.str "x") rfl

/-- C5: after a bulk send, the persisted recipient count is the number of
applications of the email form in the target state — with or without an
email address — while a delivery attempt happens exactly for the non-empty
addresses among them. -/
theorem email_send_counts (apps : List ApplicationRec) (em : EmailRec)
    (deliver : Nat → String → Bool) :
    (EmailRec.send apps em deliver).number_of_recipients
        = (recipientsOf apps em).length ∧
    (EmailRec.send apps em deliver).attempts
        = attemptList (recipientsOf apps em) ∧
    ∀ e ∈ (EmailRec.send apps em deliver).attempts,
      ∃ r ∈ recipientsOf apps em, r.email = some e ∧ e ≠ "" := by
  have hsl := sendLoop_eq deliver (recipientsOf apps em) 0
  refine ⟨rfl, ?_, ?_⟩
  · show (sendLoop deliver 0 (recipientsOf apps em)).2.2 = _
    rw [hsl]
  · intro e he
    have he2 : e ∈ attemptList (recipientsOf apps em) := by
      have : (EmailRec.send apps em deliver).attempts
          = attemptList (recipientsOf apps em) := by
        show (sendLoop deliver 0 (recipientsOf apps em)).2.2 = _
        rw [hsl]
      rwa [this] at he
    obtain ⟨r, hr, hre⟩ := List.mem_filterMap.mp he2
    exact ⟨r, hr, (usableEmail_some r e).mp hre⟩

/-- C6: each attempted delivery lands the address in exactly one of the
persisted success and failure lists — together they are a permutation of the
attempted sends, split by outcome — and a failure is caught without aborting
the loop: the set of attempts does not depend on the delivery outcomes. -/
theorem email_send_failure_isolation (apps : List ApplicationRec) (em : EmailRec)
    (deliver : Nat → String → Bool) :
    (EmailRec.send apps em deliver).successfuly_sent =
      String.intercalate ", "
        (outcomesFrom deliver 0 (attemptList (recipientsOf apps em))).1 ∧
    (EmailRec.send apps em deliver).failed_to_sent =
      String.intercalate ", "
        (outcomesFrom deliver 0 (attemptList (recipientsOf apps em))).2 ∧
    List.Perm
      ((outcomesFrom deliver 0 (attemptList (recipientsOf apps em))).1 ++
        (outcomesFrom deliver 0 (attemptList (recipientsOf apps em))).2)
      ((EmailRec.send apps em deliver).attempts) ∧
    ∀ deliver2 : Nat → String → Bool,
      (EmailRec.send apps em deliver2).attempts
        = (EmailRec.send apps em deliver).attempts := by
  have hsl := sendLoop_eq deliver (recipientsOf apps em) 0
  have hats : (EmailRec.send apps em deliver).attempts
      = attemptList (recipientsOf apps em) := by
    show (sendLoop deliver 0 (recipientsOf apps em)).2.2 = _
    rw [hsl]
  refine ⟨?_, ?_, ?_, ?_⟩
  · show String.intercalate ", " (sendLoop deliver 0 (recipientsOf apps em)).1 = _
    rw [hsl]
  · show String.intercalate ", " (sendLoop deliver 0 (recipientsOf apps em)).2.1 = _
    rw [hsl]
  · rw [hats]
    exact outcomesFrom_perm deliver (attemptList (recipientsOf apps em)) 0
  · intro deliver2
    have h2 : (EmailRec.send apps em deliver2).attempts
        = attemptList (recipientsOf apps em) := by
      show (sendLoop deliver2 0 (recipientsOf apps em)).2.2 = _
      rw [sendLoop_eq deliver2 (recipientsOf apps em) 0]
    rw [h2, hats]

end DG
